import Mathlib

/-!
Shallow embedding of `tensorflow/compiler/xla/service/gpu/gpu_fusible.cc`
(GPU fusion legality and heuristic predicates) and proofs about its
documented properties.

Instructions live in a flat pool (`Graph`); an instruction is referred to
by its index in the pool, which plays the role of the C++
`HloInstruction*` pointer identity.  A fused sub-computation's
instructions live in the same pool: a fusion node records the index of
its fused expression root and the indices of its fused parameter
instructions.
-/

namespace XlaGpu

/-- Element types of array shapes (the subset of XLA primitive types the
development needs). -/
inductive PrimitiveType where
  | pred
  | s8
  | s32
  | s64
  | bf16
  | f16
  | f32
  | f64
deriving DecidableEq

/-- Byte size of one element of the given primitive type, as in
`ShapeUtil::ByteSizeOfPrimitiveType`. -/
def primitiveByteSize : PrimitiveType → Nat
  | .pred => 1
  | .s8 => 1
  | .s32 => 4
  | .s64 => 8
  | .bf16 => 2
  | .f16 => 2
  | .f32 => 4
  | .f64 => 8

/-- Whether the primitive type is a floating-point type
(`primitive_util::IsFloatingPointType`). -/
def isFloatingPointType : PrimitiveType → Bool
  | .bf16 => true
  | .f16 => true
  | .f32 => true
  | .f64 => true
  | _ => false

/-- A shape: an array with element type, dimensions and a layout
(minor-to-major order), or a tuple of sub-shapes. -/
inductive Shape where
  | array (ty : PrimitiveType) (dims : List Nat) (layout : List Nat) : Shape
  | tuple (elems : List Shape) : Shape

mutual

/-- Decidable equality of shapes. -/
def Shape.decEq : (a b : Shape) → Decidable (a = b)
  | .array t1 d1 l1, .array t2 d2 l2 =>
    if h : t1 = t2 ∧ d1 = d2 ∧ l1 = l2 then
      .isTrue (by obtain ⟨h1, h2, h3⟩ := h; rw [h1, h2, h3])
    else
      .isFalse (by intro hc; injection hc with h1 h2 h3; exact h ⟨h1, h2, h3⟩)
  | .array _ _ _, .tuple _ => .isFalse (fun h => Shape.noConfusion h)
  | .tuple _, .array _ _ _ => .isFalse (fun h => Shape.noConfusion h)
  | .tuple e1, .tuple e2 =>
    match Shape.decEqList e1 e2 with
    | .isTrue h => .isTrue (by rw [h])
    | .isFalse h => .isFalse (by intro hc; injection hc with h1; exact h h1)

/-- Decidable equality of lists of shapes. -/
def Shape.decEqList : (a b : List Shape) → Decidable (a = b)
  | [], [] => .isTrue rfl
  | [], _ :: _ => .isFalse (fun h => List.noConfusion h)
  | _ :: _, [] => .isFalse (fun h => List.noConfusion h)
  | a :: as, b :: bs =>
    match Shape.decEq a b, Shape.decEqList as bs with
    | .isTrue h1, .isTrue h2 => .isTrue (by rw [h1, h2])
    | .isFalse h1, _ => .isFalse (by intro hc; injection hc with h1c h2c; exact h1 h1c)
    | _, .isFalse h2 => .isFalse (by intro hc; injection hc with h1c h2c; exact h2 h2c)

end

instance : DecidableEq Shape := Shape.decEq

/-- Whether the shape is an array (`Shape::IsArray`). -/
def Shape.isArrayB : Shape → Bool
  | .array _ _ _ => true
  | .tuple _ => false

/-- Whether the shape is a tuple (`Shape::IsTuple`). -/
def Shape.isTupleB : Shape → Bool
  | .array _ _ _ => false
  | .tuple _ => true

/-- Rank of a shape (`Shape::rank`); only meaningful for arrays, 0 for
tuples (the source only queries rank under an `IsArray` guard). -/
def Shape.rank : Shape → Nat
  | .array _ dims _ => dims.length
  | .tuple _ => 0

/-- Layout of a shape (`Shape::layout`); only meaningful for arrays (the
source only reads layouts of array shapes). -/
def Shape.layout : Shape → List Nat
  | .array _ _ lay => lay
  | .tuple _ => []

/-- Number of sub-shapes of a shape including the shape itself, as in
`ShapeUtil::SubshapeCount` (which counts every node visited by
`ForEachSubshape`). -/
def Shape.subshapeCount : Shape → Nat
  | .array _ _ _ => 1
  | .tuple elems => 1 + subshapeCountList elems
where
  /-- Total sub-shape count of a list of shapes. -/
  subshapeCountList : List Shape → Nat
  | [] => 0
  | s :: rest => s.subshapeCount + subshapeCountList rest

/-- Byte size of a shape, as in `ShapeUtil::ByteSizeOf` for dense
shapes: element byte size times element count for arrays; for tuples, a
pointer-table size (8 bytes per element).  The source only takes byte
sizes of array shapes. -/
def Shape.byteSizeOf : Shape → Nat
  | .array ty dims _ => primitiveByteSize ty * dims.prod
  | .tuple elems => 8 * elems.length

/-- Whether the shape is an effective scalar
(`ShapeUtil::IsEffectiveScalar`): an array all of whose dimensions are
degenerate (size 1). -/
def Shape.isEffectiveScalar : Shape → Bool
  | .array _ dims _ => dims.all (· == 1)
  | .tuple _ => false

/-- Modelled from the spec: `ShapeUtil::EqualIgnoringFpPrecision` (the
shape utility library is not part of the packaged sources) — shapes are
"equal ignoring floating-point element-type precision differences".  We
realise this by canonicalising every floating-point element type to
`f32` and comparing structurally. -/
def Shape.canonFp : Shape → Shape
  | .array ty dims lay => .array (if isFloatingPointType ty then .f32 else ty) dims lay
  | .tuple elems => .tuple (canonFpList elems)
where
  /-- Canonicalise a list of shapes. -/
  canonFpList : List Shape → List Shape
  | [] => []
  | s :: rest => s.canonFp :: canonFpList rest

/-- Shape equality (`ShapeUtil::Equal`): structural equality including
layouts. -/
def shapeEqual (a b : Shape) : Bool := decide (a = b)

/-- Shape equality ignoring floating-point precision
(`ShapeUtil::EqualIgnoringFpPrecision`). -/
def shapeEqualIgnoringFpPrecision (a b : Shape) : Bool :=
  decide (a.canonFp = b.canonFp)

/-- Fusion kinds (`HloInstruction::FusionKind`). -/
inductive FusionKind where
  | kLoop
  | kInput
  | kOutput
  | kCustom
deriving DecidableEq

/-- The HLO opcodes the development needs. -/
inductive HloOpcode where
  | parameter
  | constant
  | add
  | multiply
  | subtract
  | divide
  | compare
  | convert
  | tuple
  | fusion
  | reduce
  | scatter
  | gather
  | bitcast
  | broadcast
  | concatenate
  | dynamicSlice
  | dynamicUpdateSlice
  | iota
  | pad
  | reduceWindow
  | reshape
  | reverse
  | slice
  | transpose
  | dot
  | convolution
  | customCall
deriving DecidableEq

/-- An instruction node.  `operands`, `fusedRoot` and `fusedParams` hold
indices into the instruction pool.  `reducesToContiguous` abstracts the
dimension analysis of `IsReductionFromOrToContiguousDimensions` (whose
implementation lives outside the packaged sources) as a per-node
attribute, meaningful for `reduce` nodes; `dimensions` models
`HloInstruction::dimensions` (the reduced dimensions of a reduce);
`reshapeIsBitcast` abstracts the dimension analysis inside
`HloInstruction::CouldBeBitcast` for reshapes. -/
structure Node where
  opcode : HloOpcode
  shape : Shape
  operands : List Nat
  fusionKind : FusionKind
  fusedRoot : Nat
  fusedParams : List Nat
  reducesToContiguous : Bool
  dimensions : List Nat
  reshapeIsBitcast : Bool
deriving DecidableEq

/-- The default node, used for out-of-range lookups (a real graph never
performs such a lookup). -/
def defaultNode : Node :=
  { opcode := .parameter
    shape := .array .f32 [] []
    operands := []
    fusionKind := .kLoop
    fusedRoot := 0
    fusedParams := []
    reducesToContiguous := false
    dimensions := []
    reshapeIsBitcast := false }

/-- An instruction pool; index = identity. -/
structure Graph where
  nodes : List Node


/-- Node lookup. -/
def getNode (g : Graph) (i : Nat) : Node := g.nodes.getD i defaultNode

/-- Modelled from the spec: whether an opcode is elementwise
(`HloInstruction::IsElementwise`, whose implementation is not part of
the packaged sources; the spec's §4.1 treats "elementwise op" as a
category of the opcode).  Constants count as nullary elementwise ops. -/
def isElementwiseOpcode : HloOpcode → Bool
  | .constant => true
  | .add => true
  | .multiply => true
  | .subtract => true
  | .divide => true
  | .compare => true
  | .convert => true
  | _ => false

/-- Modelled from the spec: `HloInstruction::IsFusible` ("generally
fusible"; the implementation, outside the packaged sources, excludes
parameters and side-effecting ops — the opcode set here has no
side-effecting members). -/
def instrIsFusible (g : Graph) (i : Nat) : Bool :=
  !(decide ((getNode g i).opcode = .parameter))

/-- Modelled from the spec: `IsReductionFromOrToContiguousDimensions`
(from the emission-utility library, outside the packaged sources): a
`reduce` whose "reduction pattern reduces to a lower-rank contiguous
result", the dimension analysis abstracted as the node attribute
`reducesToContiguous`. -/
def isReductionFromOrToContiguousDimensions (g : Graph) (i : Nat) : Bool :=
  decide ((getNode g i).opcode = .reduce) && (getNode g i).reducesToContiguous

/-- `HloInstruction::IsLoopFusion`: a fusion instruction of kind Loop. -/
def isLoopFusion (g : Graph) (i : Nat) : Bool :=
  decide ((getNode g i).opcode = .fusion) &&
    decide ((getNode g i).fusionKind = .kLoop)

/-- `HloInstruction::IsInputFusion`: a fusion instruction of kind Input. -/
def isInputFusion (g : Graph) (i : Nat) : Bool :=
  decide ((getNode g i).opcode = .fusion) &&
    decide ((getNode g i).fusionKind = .kInput)

/-- `HloInstruction::IsMultiOutputFusion`: a fusion instruction whose
fused expression root is a tuple. -/
def isMultiOutputFusion (g : Graph) (i : Nat) : Bool :=
  decide ((getNode g i).opcode = .fusion) &&
    decide ((getNode g (getNode g i).fusedRoot).opcode = .tuple)

/-- Modelled from the spec: `HloInstruction::CouldBeBitcast` (outside
the packaged sources): a transpose, or a reshape that merely inserts or
deletes degenerate dimensions (abstracted as `reshapeIsBitcast`). -/
def couldBeBitcast (g : Graph) (i : Nat) : Bool :=
  decide ((getNode g i).opcode = .transpose) ||
    (decide ((getNode g i).opcode = .reshape) && (getNode g i).reshapeIsBitcast)

/-- Modelled from the spec: `ImplementedAsLibraryCall` (from the
emission-utility library, outside the packaged sources): ops lowered to
library calls rather than generated kernels. -/
def implementedAsLibraryCall (g : Graph) (i : Nat) : Bool :=
  decide ((getNode g i).opcode = .dot) ||
    decide ((getNode g i).opcode = .convolution) ||
    decide ((getNode g i).opcode = .customCall)

/-- Index of `instr.operand(0)` (the source applies it only to
instructions with at least one operand). -/
def operand0 (g : Graph) (i : Nat) : Nat := (getNode g i).operands.headD 0

/-- The users of an instruction: all pool members having it among their
operands (`HloInstruction::users`, which holds each user once). -/
def usersOf (g : Graph) (i : Nat) : List Nat :=
  (List.range g.nodes.length).filter (fun j => decide (i ∈ (getNode g j).operands))

/-! ### The functions of `gpu_fusible.cc` -/

/-- `AppendParams`: the leaf parameters an instruction contributes — its
fused parameters when it is a fusion, its operands otherwise. -/
def appendParams (g : Graph) (i : Nat) : List Nat :=
  if (getNode g i).opcode = .fusion then (getNode g i).fusedParams
  else (getNode g i).operands

/-- The loop of `LayoutsAreReduceInputFusionFriendly` that records the
maximum array rank seen so far together with that parameter's layout
(accumulator initialised to `(-1, unset)`). -/
def scanMaxRank : List Shape → Int × List Nat → Int × List Nat
  | [], acc => acc
  | s :: rest, acc =>
      scanMaxRank rest
        (if s.isArrayB && decide (acc.1 < (s.rank : Int)) then ((s.rank : Int), s.layout) else acc)

/-- The body of `LayoutsAreReduceInputFusionFriendly` acting on the
collected parameter shapes: record the max-rank layout, then check that
every array parameter either has strictly lower rank or an identical
layout. -/
def friendlyList (params : List Shape) : Bool :=
  params.all fun s =>
    !s.isArrayB || decide ((s.rank : Int) < (scanMaxRank params (-1, [])).1) ||
      decide (s.layout = (scanMaxRank params (-1, [])).2)

/-- The shapes of the parameters collected from both arguments of
`LayoutsAreReduceInputFusionFriendly`. -/
def collectedParamShapes (g : Graph) (producer reduce : Nat) : List Shape :=
  (appendParams g producer ++ appendParams g reduce).map (fun j => (getNode g j).shape)

/-- `LayoutsAreReduceInputFusionFriendly`. -/
def layoutsAreReduceInputFusionFriendly (g : Graph) (producer reduce : Nat) : Bool :=
  friendlyList (collectedParamShapes g producer reduce)

/-- The abort condition of the `CHECK`s inside `IsReduceInputFusion`: a
fusion rooted (or, for a multi-output fusion, root-operand-rooted) at a
reduction-to-contiguous-dimensions op that is not of kind Input. -/
def reduceInputFusionCheckFails (g : Graph) (i : Nat) : Bool :=
  if isMultiOutputFusion g i then
    ((getNode g (getNode g i).fusedRoot).operands.any
        (fun j => isReductionFromOrToContiguousDimensions g j)) &&
      !isInputFusion g i
  else
    decide ((getNode g i).opcode = .fusion) &&
      isReductionFromOrToContiguousDimensions g (getNode g i).fusedRoot &&
      !isInputFusion g i

/-- `IsReduceInputFusion` (its returned value; the fatal `CHECK`s are
modelled separately by `reduceInputFusionCheckFails`). -/
def isReduceInputFusion (g : Graph) (i : Nat) : Bool :=
  if isMultiOutputFusion g i then
    (getNode g (getNode g i).fusedRoot).operands.any
      (fun j => isReductionFromOrToContiguousDimensions g j)
  else
    decide ((getNode g i).opcode = .fusion) &&
      isReductionFromOrToContiguousDimensions g (getNode g i).fusedRoot

/-- `IsInputFusibleReduction`. -/
def isInputFusibleReduction (g : Graph) (i : Nat) : Bool :=
  if decide ((getNode g i).opcode = .reduce) && (getNode g i).shape.isTupleB then
    false
  else
    isReduceInputFusion g i || isReductionFromOrToContiguousDimensions g i

/-- The `get_real_hero` lambda of `ShapesCompatibleForMultiOutputFusion`:
the instruction that determines the emitter used for lowering. -/
def getRealHero (g : Graph) (i : Nat) : Nat :=
  if (getNode g i).opcode = .fusion then
    if isMultiOutputFusion g i then
      match (getNode g (getNode g i).fusedRoot).operands.find?
          (fun j => isReductionFromOrToContiguousDimensions g j) with
      | some j => j
      | none => (getNode g (getNode g i).fusedRoot).operands.headD 0
    else (getNode g i).fusedRoot
  else i

/-- The `get_loop_shape` lambda of
`ShapesCompatibleForMultiOutputFusion`: for a contiguous-dimensions
reduction, the shape of its first operand; otherwise its own shape. -/
def getLoopShape (g : Graph) (i : Nat) : Shape :=
  if isReductionFromOrToContiguousDimensions g i then
    (getNode g (operand0 g i)).shape
  else (getNode g i).shape

/-- The early-exit condition of `ShapesCompatibleForMultiOutputFusion`:
both heroes are contiguous-dimensions reductions with mismatched output
shapes or mismatched reduced dimensions. -/
def mofHeroesIncompatible (g : Graph) (h1 h2 : Nat) : Bool :=
  isReductionFromOrToContiguousDimensions g h1 &&
    isReductionFromOrToContiguousDimensions g h2 &&
    (!shapeEqual (getNode g h1).shape (getNode g h2).shape ||
      decide ((getNode g h1).dimensions ≠ (getNode g h2).dimensions))

/-- `ShapesCompatibleForMultiOutputFusion`. -/
def shapesCompatibleForMultiOutputFusion (g : Graph) (i1 i2 : Nat) : Bool :=
  if mofHeroesIncompatible g (getRealHero g i1) (getRealHero g i2) then false
  else
    shapeEqualIgnoringFpPrecision (getLoopShape g (getRealHero g i1))
      (getLoopShape g (getRealHero g i2))

/-- `IsInputFusibleScatter`. -/
def isInputFusibleScatter (g : Graph) (i : Nat) : Bool :=
  decide ((getNode g i).opcode = .scatter) ||
    (decide ((getNode g i).opcode = .fusion) &&
      decide ((getNode g i).fusionKind = .kInput) &&
      decide ((getNode g (getNode g i).fusedRoot).opcode = .scatter))

/-- `IsInputFusible`. -/
def isInputFusible (g : Graph) (i : Nat) : Bool :=
  instrIsFusible g i && (isInputFusibleReduction g i || isInputFusibleScatter g i)

/-- `IsLoopFusible`. -/
def isLoopFusible (g : Graph) (i : Nat) : Bool :=
  instrIsFusible g i &&
    ((isElementwiseOpcode (getNode g i).opcode && decide ((getNode g i).operands.length > 0)) ||
      decide ((getNode g i).opcode = .bitcast) ||
      decide ((getNode g i).opcode = .broadcast) ||
      decide ((getNode g i).opcode = .concatenate) ||
      decide ((getNode g i).opcode = .dynamicSlice) ||
      decide ((getNode g i).opcode = .dynamicUpdateSlice) ||
      (decide ((getNode g i).opcode = .fusion) &&
        decide ((getNode g i).fusionKind = .kLoop)) ||
      decide ((getNode g i).opcode = .gather) ||
      decide ((getNode g i).opcode = .iota) ||
      decide ((getNode g i).opcode = .pad) ||
      (decide ((getNode g i).opcode = .reduce) &&
        !isReductionFromOrToContiguousDimensions g i &&
        !(getNode g i).shape.isTupleB) ||
      decide ((getNode g i).opcode = .reduceWindow) ||
      decide ((getNode g i).opcode = .reshape) ||
      decide ((getNode g i).opcode = .reverse) ||
      decide ((getNode g i).opcode = .slice) ||
      decide ((getNode g i).opcode = .constant) ||
      decide ((getNode g i).opcode = .transpose))

/-- `IsFusible` (the free function of `gpu_fusible.cc`). -/
def isFusible (g : Graph) (i : Nat) : Bool :=
  isInputFusible g i || isLoopFusible g i

/-- `IsProducerConsumerFusible`. -/
def isProducerConsumerFusible (g : Graph) (producer consumer : Nat) : Bool :=
  if !isLoopFusible g producer || !isFusible g consumer then false
  else if isMultiOutputFusion g producer then false
  else if isInputFusibleReduction g consumer &&
      !layoutsAreReduceInputFusionFriendly g producer consumer then false
  else if couldBeBitcast g producer &&
      implementedAsLibraryCall g (operand0 g producer) then false
  else if (getNode g producer).opcode = .constant then
    (getNode g producer).shape.isEffectiveScalar &&
      decide ((getNode g consumer).opcode = .fusion)
  else true

/-- `IsFusibleAsMultiOutputFusionRoot`. -/
def isFusibleAsMultiOutputFusionRoot (g : Graph) (i : Nat) : Bool :=
  instrIsFusible g i &&
    (isInputFusibleReduction g i || isLoopFusion g i ||
      isElementwiseOpcode (getNode g i).opcode)

/-- `IsProducerConsumerMultiOutputFusible`. -/
def isProducerConsumerMultiOutputFusible (g : Graph) (producer consumer : Nat) : Bool :=
  isLoopFusible g producer && isFusibleAsMultiOutputFusionRoot g consumer &&
    shapesCompatibleForMultiOutputFusion g producer consumer &&
    layoutsAreReduceInputFusionFriendly g producer consumer

/-- Modelled from the spec: the fixed cap
`kMaxOperandsAndOutputsPerFusion` (declared in the header, which is not
part of the packaged sources; its concrete value only scales examples). -/
def kMaxOperandsAndOutputsPerFusion : Int := 64

/-- The output-buffer count used by `FusionWouldBeTooLarge`: the sum of
the two instructions' flattened sub-shape counts. -/
def numOutputBuffers (g : Graph) (i1 i2 : Nat) : Int :=
  ((getNode g i1).shape.subshapeCount : Int) + ((getNode g i2).shape.subshapeCount : Int)

/-- The precise operand count of `FusionWouldBeTooLarge`: the size of
the union of both instructions' operand sets with the two instructions
themselves removed. -/
def preciseOperandCount (g : Graph) (i1 i2 : Nat) : Int :=
  ((((getNode g i1).operands ++ (getNode g i2).operands).dedup.filter
      (fun j => !(decide (j = i1)) && !(decide (j = i2)))).length : Int)

/-- `FusionWouldBeTooLarge`. -/
def fusionWouldBeTooLarge (g : Graph) (i1 i2 : Nat) : Bool :=
  if ((getNode g i1).operands.length : Int) + ((getNode g i2).operands.length : Int)
      - 1 + numOutputBuffers g i1 i2 ≤ kMaxOperandsAndOutputsPerFusion then
    false
  else
    decide (preciseOperandCount g i1 i2 + numOutputBuffers g i1 i2 >
      kMaxOperandsAndOutputsPerFusion)

/-- `ChooseFusionKind`. -/
def chooseFusionKind (g : Graph) (consumer : Nat) : FusionKind :=
  if isInputFusible g consumer then .kInput else .kLoop

/-- The tail of `ShouldFuseProducerConsumerMOF` after the consumer
classification: pair fusibility, the constant rejection and the size
cap. -/
def shouldFuseMOFTail (g : Graph) (producer consumer : Nat) : Bool :=
  isProducerConsumerMultiOutputFusible g producer consumer &&
    !(decide ((getNode g producer).opcode = .constant)) &&
    !fusionWouldBeTooLarge g producer consumer

/-- `ShouldFuseProducerConsumerMOF`.  The first branch (a consumer that
is fusible as a multi-output-fusion root but not an input-fusible
reduction) only logs in the source — the commented-out environment
toggle is never consulted — and falls through to the remaining checks. -/
def shouldFuseProducerConsumerMOF (g : Graph) (producer consumer : Nat) : Bool :=
  if isFusibleAsMultiOutputFusionRoot g consumer && !isInputFusibleReduction g consumer then
    shouldFuseMOFTail g producer consumer
  else if !isInputFusibleReduction g consumer then false
  else shouldFuseMOFTail g producer consumer

/-- The `is_downcast` lambda of `PostponeFusion`: a convert whose
operand's byte size strictly exceeds its own. -/
def isDowncast (g : Graph) (i : Nat) : Bool :=
  decide ((getNode g i).opcode = .convert) &&
    decide ((getNode g (operand0 g i)).shape.byteSizeOf > (getNode g i).shape.byteSizeOf)

/-- The conservative cycle guard of `PostponeFusion` (step 3): with more
than one user of the future producer, refuse if any user has an operand
that itself has operands and is not the future producer. -/
def futureFusionMayCycle (g : Graph) (futureProducer : Nat) : Bool :=
  decide ((usersOf g futureProducer).length > 1) &&
    (usersOf g futureProducer).any fun u =>
      (getNode g u).operands.any fun su =>
        decide ((getNode g su).operands.length > 0) && !(decide (su = futureProducer))

/-- Steps 2 and 3 of `PostponeFusion`, reached when step 1 classified
the producer as eligible: look ahead one level and apply the cycle
guard. -/
def postponeLookAhead (g : Graph) (producer : Nat) : Bool :=
  shouldFuseProducerConsumerMOF g (operand0 g producer) producer &&
    !futureFusionMayCycle g (operand0 g producer)

/-- `PostponeFusion`. -/
def postponeFusion (g : Graph) (producer consumer : Nat) : Bool :=
  if isDowncast g producer then
    if isDowncast g consumer ||
        (isLoopFusion g consumer && isDowncast g (getNode g consumer).fusedRoot) then
      false
    else if (getNode g (operand0 g producer)).opcode = .parameter then
      false
    else postponeLookAhead g producer
  else if isLoopFusion g producer && isDowncast g (getNode g producer).fusedRoot &&
      decide ((getNode g producer).operands.length = 1) then
    postponeLookAhead g producer
  else if isLoopFusion g producer && decide ((getNode g producer).operands.length = 1) then
    if decide ((getNode g (getNode g producer).fusedRoot).opcode = .convert) &&
        decide ((getNode g (operand0 g producer)).shape.byteSizeOf >
          (getNode g producer).shape.byteSizeOf) then
      postponeLookAhead g producer
    else false
  else false

/-! ### Concrete example graphs -/

/-- Node constructor with the non-structural attributes defaulted. -/
def mkNode (op : HloOpcode) (sh : Shape) (ops : List Nat) : Node :=
  { opcode := op, shape := sh, operands := ops, fusionKind := .kLoop,
    fusedRoot := 0, fusedParams := [], reducesToContiguous := false,
    dimensions := [], reshapeIsBitcast := false }

/-- Shape `f32[4]{0}`. -/
def f32v4 : Shape := .array .f32 [4] [0]

/-- Shape `f64[4]{0}`. -/
def f64v4 : Shape := .array .f64 [4] [0]

/-- Shape `f16[4]{0}`. -/
def f16v4 : Shape := .array .f16 [4] [0]

/-- Shape `s8[4]{0}`. -/
def s8v4 : Shape := .array .s8 [4] [0]

/-- Shape `f32[]`. -/
def f32scalar : Shape := .array .f32 [] []

/-- Graph for claim C1: an elementwise producer `add` (node 2) feeding
an elementwise consumer `multiply` (node 3); the consumer is fusible as
a multi-output-fusion root but is not an input-fusible reduction. -/
def gC1 : Graph :=
  ⟨[mkNode .parameter f32v4 [],
    mkNode .parameter f32v4 [],
    mkNode .add f32v4 [0, 1],
    mkNode .multiply f32v4 [2, 0]]⟩

/-- Graph for claim C2: a chain of two downcast converts
(`f32[4] → f16[4] → s8[4]`) below a parameter. -/
def gC2 : Graph :=
  ⟨[mkNode .parameter f32v4 [],
    mkNode .convert f16v4 [0],
    mkNode .convert s8v4 [1]]⟩

/-- Graph for claim C3: node 0 is a concatenate of 63 distinct
parameters (nodes 2..64), node 1 is an operand-free iota; raw operand
count plus output-buffer count is 65, one over the cap, and so is the
precise union count. -/
def gC3 : Graph :=
  ⟨[mkNode .concatenate f32v4 ((List.range 63).map (· + 2)),
    mkNode .iota f32v4 []] ++ (List.range 63).map (fun _ => mkNode .parameter f32v4 [])⟩

/-- Graph for claim C6: a variadic reduce (tuple-shaped output) that
does reduce to contiguous dimensions. -/
def gC6 : Graph :=
  ⟨[mkNode .parameter f32v4 [],
    { mkNode .reduce (.tuple [f32scalar, f32scalar]) [0] with reducesToContiguous := true }]⟩

/-- Graph for claim C7: a scalar constant (node 0) and a non-scalar
constant (node 4) feeding a Loop-kind fusion (node 3). -/
def gC7 : Graph :=
  ⟨[mkNode .constant f32scalar [],
    mkNode .parameter f32v4 [],
    mkNode .add f32v4 [1, 1],
    { mkNode .fusion f32v4 [0] with fusedRoot := 2, fusedParams := [1] },
    mkNode .constant f32v4 []]⟩

/-- Graph for claim C8: a correctly tagged Input-kind fusion (node 3)
rooted at a contiguous-dimensions reduction (node 2). -/
def gC8 : Graph :=
  ⟨[mkNode .parameter f32v4 [],
    mkNode .parameter f32v4 [],
    { mkNode .reduce f32scalar [1] with reducesToContiguous := true, dimensions := [0] },
    { mkNode .fusion f32scalar [0] with fusionKind := .kInput, fusedRoot := 2, fusedParams := [1] }]⟩

/-- Graph for claim C9: two operand-free iota instructions — the
collected parameter pool is empty. -/
def gC9 : Graph :=
  ⟨[mkNode .iota f32v4 [], mkNode .iota f32v4 []]⟩

/-- Graph for claim C10: node 6 is a single-operand Loop fusion whose
root (node 5) is a convert that by itself upcasts (`f16[4] → f32[4]`),
while the fusion as a whole shrinks memory (`f64[4]` in, `f32[4]` out);
its operand is the two-parameter add at node 2, whose only user is the
fusion. -/
def gC10 : Graph :=
  ⟨[mkNode .parameter f64v4 [],
    mkNode .parameter f64v4 [],
    mkNode .add f64v4 [0, 1],
    mkNode .parameter f64v4 [],
    mkNode .convert f16v4 [3],
    mkNode .convert f32v4 [4],
    { mkNode .fusion f32v4 [2] with fusedRoot := 5, fusedParams := [3] },
    mkNode .multiply f32v4 [6, 6]]⟩

/-! ### Claim C6 -/

/-- C6: a reduce instruction whose output shape is a tuple (variadic
reduce) is never classified input-fusible through the reduction path —
`IsInputFusibleReduction` returns false regardless of whether its
reduction pattern reduces to contiguous dimensions (the theorem
quantifies over all graphs, hence over both values of that attribute). -/
theorem variadicReduce_not_inputFusibleReduction (g : Graph) (i : Nat)
    (hop : (getNode g i).opcode = .reduce)
    (ht : (getNode g i).shape.isTupleB = true) :
    isInputFusibleReduction g i = false := by
  unfold isInputFusibleReduction
  rw [if_pos]
  simp [hop, ht]

/-- Witness for C6: the variadic contiguous-dimensions reduce of `gC6`
is rejected. -/
theorem variadicReduce_not_inputFusibleReduction_witness :
    isInputFusibleReduction gC6 1 = false :=
  variadicReduce_not_inputFusibleReduction gC6 1 (by decide) (by decide)

/-! ### Claim C9 -/

/-- C9: when the collected leaf parameters of the two instructions
contain no array-shaped parameter, `LayoutsAreReduceInputFusionFriendly`
returns true: every disjunct of the final check is discharged by the
not-an-array case, so the recorded maximum-rank layout (left unset in
the source when no array parameter exists) is never consulted. -/
theorem layoutsFriendly_of_no_array_params (g : Graph) (a b : Nat)
    (h : ∀ s ∈ collectedParamShapes g a b, s.isArrayB = false) :
    layoutsAreReduceInputFusionFriendly g a b = true := by
  unfold layoutsAreReduceInputFusionFriendly friendlyList
  rw [List.all_eq_true]
  intro s hs
  simp [h s hs]

/-- Witness for C9: two operand-free iota instructions collect an empty
parameter pool. -/
theorem layoutsFriendly_of_no_array_params_witness :
    layoutsAreReduceInputFusionFriendly gC9 0 1 = true :=
  layoutsFriendly_of_no_array_params gC9 0 1 (by decide)

/-! ### Claim C2 -/

/-- C2: when the producer is a direct downcast, `PostponeFusion`
returns false if the consumer is also a downcast (directly or as the
root of a Loop-kind fusion), and also returns false if the producer's
input operand is a graph parameter. -/
theorem postponeFusion_downcast_refusals (g : Graph) (p c : Nat)
    (hp : isDowncast g p = true)
    (hcase :
      (isDowncast g c || (isLoopFusion g c && isDowncast g (getNode g c).fusedRoot)) = true ∨
        (getNode g (operand0 g p)).opcode = .parameter) :
    postponeFusion g p c = false := by
  unfold postponeFusion
  rw [if_pos hp]
  rcases hcase with h | h
  · rw [if_pos h]
  · by_cases hc :
      (isDowncast g c || (isLoopFusion g c && isDowncast g (getNode g c).fusedRoot)) = true
    · rw [if_pos hc]
    · rw [if_neg hc, if_pos h]

/-- Witness for C2: two chained downcast converts (`f32[4] → f16[4] →
s8[4]`) are not postponed. -/
theorem postponeFusion_downcast_refusals_witness :
    postponeFusion gC2 1 2 = false :=
  postponeFusion_downcast_refusals gC2 1 2 (by decide) (Or.inl (by decide))

/-! ### Claim C3 -/

/-- Counterexample for C3 as stated: on `gC3` the combined raw operand
count plus the output-buffer count is 65, strictly over the cap of 64,
and the precise union count plus the output-buffer count is also 65
over the cap, so the claim's "otherwise" clause predicts a true result —
but the fast path of `FusionWouldBeTooLarge` (which subtracts one for a
possibly fused edge) accepts and the function returns false. -/
theorem fusionWouldBeTooLarge_claim_counterexample :
    fusionWouldBeTooLarge gC3 0 1 = false ∧
      ((getNode gC3 0).operands.length : Int) + ((getNode gC3 1).operands.length : Int) +
          numOutputBuffers gC3 0 1 > kMaxOperandsAndOutputsPerFusion ∧
      preciseOperandCount gC3 0 1 + numOutputBuffers gC3 0 1 >
        kMaxOperandsAndOutputsPerFusion := by
  refine ⟨by decide, by decide, by decide⟩

/-- C3 amended: the fast path of `FusionWouldBeTooLarge` accepts (returns
false) whenever the combined raw operand count *minus one* plus the two
sub-shape counts is at most `kMaxOperandsAndOutputsPerFusion`; beyond
that bound it returns true iff the size of the union of the two operand
sets with the two instructions themselves removed, plus the two
sub-shape counts, exceeds the cap. -/
theorem fusionWouldBeTooLarge_amended (g : Graph) (a b : Nat) :
    (((getNode g a).operands.length : Int) + ((getNode g b).operands.length : Int) - 1 +
          numOutputBuffers g a b ≤ kMaxOperandsAndOutputsPerFusion →
        fusionWouldBeTooLarge g a b = false) ∧
      (((getNode g a).operands.length : Int) + ((getNode g b).operands.length : Int) - 1 +
          numOutputBuffers g a b > kMaxOperandsAndOutputsPerFusion →
        (fusionWouldBeTooLarge g a b = true ↔
          preciseOperandCount g a b + numOutputBuffers g a b >
            kMaxOperandsAndOutputsPerFusion)) := by
  unfold fusionWouldBeTooLarge
  constructor
  · intro h
    rw [if_pos h]
  · intro h
    rw [if_neg (by omega)]
    simp

/-- Witness for C3's amended theorem: on `gC3` the fast-path bound
63 + 0 − 1 + 2 = 64 is within the cap, so the function returns false. -/
theorem fusionWouldBeTooLarge_amended_witness :
    fusionWouldBeTooLarge gC3 0 1 = false :=
  (fusionWouldBeTooLarge_amended gC3 0 1).1 (by decide)

/-! ### Claim C1 -/

/-- If the producer/consumer pair is multi-output fusible, the consumer
is fusible as a multi-output-fusion root. -/
theorem pcmof_requires_mofRoot (g : Graph) (p c : Nat)
    (h : isProducerConsumerMultiOutputFusible g p c = true) :
    isFusibleAsMultiOutputFusionRoot g c = true := by
  unfold isProducerConsumerMultiOutputFusible at h
  simp only [Bool.and_eq_true] at h
  tauto

/-- Counterexample for C1 as stated: on `gC1` the elementwise consumer
(node 3) is not an input-fusible reduction, yet
`ShouldFuseProducerConsumerMOF` returns true — the "experimental"
branch of the source never returns false (the environment toggle in it
is commented out and never branched on), it only logs and falls
through. -/
theorem shouldFuseMOF_nonreduction_counterexample :
    shouldFuseProducerConsumerMOF gC1 2 3 = true ∧
      isInputFusibleReduction gC1 3 = false :=
  ⟨by decide, by decide⟩

/-- C1 amended: being fusible as a multi-output-fusion root — not being
an input-fusible reduction — is the necessary condition on the consumer
for a true result of `ShouldFuseProducerConsumerMOF`; consumers that are
valid multi-output-fusion roots but not input-fusible reductions take
the experimental branch, which falls through to the remaining checks
instead of returning false. -/
theorem shouldFuseMOF_requires_mofRoot (g : Graph) (p c : Nat)
    (h : shouldFuseProducerConsumerMOF g p c = true) :
    isFusibleAsMultiOutputFusionRoot g c = true := by
  unfold shouldFuseProducerConsumerMOF at h
  have htail : shouldFuseMOFTail g p c = true →
      isFusibleAsMultiOutputFusionRoot g c = true := by
    intro ht
    unfold shouldFuseMOFTail at ht
    simp only [Bool.and_eq_true] at ht
    exact pcmof_requires_mofRoot g p c ht.1.1
  split at h
  · exact htail h
  · split at h
    · exact absurd h (by simp)
    · exact htail h

/-- Witness for C1's amended theorem: instantiated on `gC1`. -/
theorem shouldFuseMOF_requires_mofRoot_witness :
    isFusibleAsMultiOutputFusionRoot gC1 3 = true :=
  shouldFuseMOF_requires_mofRoot gC1 2 3 (by decide)

/-! ### Claim C5 -/

/-- Decide of an equality is symmetric in its sides. -/
theorem decide_eq_comm {α : Type} [DecidableEq α] (x y : α) :
    decide (x = y) = decide (y = x) :=
  decide_eq_decide.mpr eq_comm

/-- `ShapeUtil::Equal` is symmetric. -/
theorem shapeEqual_symm (a b : Shape) : shapeEqual a b = shapeEqual b a := by
  unfold shapeEqual
  exact decide_eq_comm a b

/-- `ShapeUtil::EqualIgnoringFpPrecision` is symmetric. -/
theorem shapeEqualIgnoringFpPrecision_symm (a b : Shape) :
    shapeEqualIgnoringFpPrecision a b = shapeEqualIgnoringFpPrecision b a := by
  unfold shapeEqualIgnoringFpPrecision
  exact decide_eq_comm a.canonFp b.canonFp

/-- The reduction-mismatch early exit of
`ShapesCompatibleForMultiOutputFusion` is symmetric in the two heroes. -/
theorem mofHeroesIncompatible_symm (g : Graph) (x y : Nat) :
    mofHeroesIncompatible g x y = mofHeroesIncompatible g y x := by
  unfold mofHeroesIncompatible
  have hD : decide ((getNode g x).dimensions ≠ (getNode g y).dimensions)
      = decide ((getNode g y).dimensions ≠ (getNode g x).dimensions) :=
    decide_eq_decide.mpr ne_comm
  rw [shapeEqual_symm (getNode g x).shape (getNode g y).shape, hD,
    Bool.and_comm (isReductionFromOrToContiguousDimensions g x)
      (isReductionFromOrToContiguousDimensions g y)]

/-- C5: `ShapesCompatibleForMultiOutputFusion` is symmetric — swapping
the two instructions yields the same boolean, because each hero is
computed from its own argument and every comparison between the two
heroes is itself symmetric. -/
theorem shapesCompatibleForMultiOutputFusion_symm (g : Graph) (a b : Nat) :
    shapesCompatibleForMultiOutputFusion g a b =
      shapesCompatibleForMultiOutputFusion g b a := by
  unfold shapesCompatibleForMultiOutputFusion
  rw [mofHeroesIncompatible_symm g (getRealHero g a) (getRealHero g b),
    shapeEqualIgnoringFpPrecision_symm (getLoopShape g (getRealHero g a))
      (getLoopShape g (getRealHero g b))]

/-! ### Claim C8 -/

/-- The trigger of the fatal consistency checks in
`IsReduceInputFusion`: for a multi-output fusion, some operand of the
fused root is a reduction-to-contiguous-dimensions op; for any other
fusion, the fused root itself is one. -/
def ReduceRooted (g : Graph) (i : Nat) : Prop :=
  (isMultiOutputFusion g i = true ∧
    ∃ j ∈ (getNode g (getNode g i).fusedRoot).operands,
      isReductionFromOrToContiguousDimensions g j = true) ∨
  (isMultiOutputFusion g i = false ∧
    isReductionFromOrToContiguousDimensions g (getNode g i).fusedRoot = true)

instance (g : Graph) (i : Nat) : Decidable (ReduceRooted g i) := by
  unfold ReduceRooted
  infer_instance

/-- The upstream tagging invariant assumed by `IsReduceInputFusion`:
every fusion instruction whose fused root (or, for a multi-output
fusion, some operand of the fused root) is a
reduction-to-contiguous-dimensions op carries fusion kind Input. -/
def InputKindTaggingOK (g : Graph) : Prop :=
  ∀ i < g.nodes.length, (getNode g i).opcode = .fusion →
    ReduceRooted g i → (getNode g i).fusionKind = .kInput

instance (g : Graph) : Decidable (InputKindTaggingOK g) := by
  unfold InputKindTaggingOK
  infer_instance

/-- C8: under the tagging invariant the fatal `CHECK` branch inside
`IsReduceInputFusion` is unreachable; and for every instruction
violating the precondition — a fusion whose fused root (or, for a
multi-output fusion, some operand of the fused root) is a
contiguous-dimensions reduction yet whose kind is not Input — the abort
condition fires, so the classifier aborts there rather than returning a
boolean. -/
theorem reduceInputFusionCheck_unreachable (g : Graph) :
    (InputKindTaggingOK g → ∀ i, reduceInputFusionCheckFails g i = false) ∧
      (∀ i, (getNode g i).opcode = .fusion → ReduceRooted g i →
        (getNode g i).fusionKind ≠ .kInput →
        reduceInputFusionCheckFails g i = true) := by
  constructor
  · intro hP i
    by_cases hlen : i < g.nodes.length
    · unfold reduceInputFusionCheckFails
      split
      · rename_i hmof
        have hfus : (getNode g i).opcode = .fusion := by
          unfold isMultiOutputFusion at hmof
          simp only [Bool.and_eq_true, decide_eq_true_eq] at hmof
          exact hmof.1
        by_cases hany : (getNode g (getNode g i).fusedRoot).operands.any
            (fun j => isReductionFromOrToContiguousDimensions g j) = true
        · have hkind := hP i hlen hfus
            (Or.inl ⟨hmof, by simpa [List.any_eq_true] using hany⟩)
          have hinp : isInputFusion g i = true := by
            unfold isInputFusion
            simp [hfus, hkind]
          simp [hinp]
        · simp only [Bool.not_eq_true] at hany
          simp [hany]
      · rename_i hnmof
        by_cases hfus : (getNode g i).opcode = .fusion
        · by_cases hrtc :
            isReductionFromOrToContiguousDimensions g (getNode g i).fusedRoot = true
          · have hkind := hP i hlen hfus (Or.inr ⟨by simpa using hnmof, hrtc⟩)
            have hinp : isInputFusion g i = true := by
              unfold isInputFusion
              simp [hfus, hkind]
            simp [hinp]
          · simp only [Bool.not_eq_true] at hrtc
            simp [hrtc]
        · simp [hfus]
    · have hdef : getNode g i = defaultNode := by
        unfold getNode
        apply List.getD_eq_default
        omega
      unfold reduceInputFusionCheckFails isMultiOutputFusion
      rw [hdef]
      simp [defaultNode]
  · intro i hfus htrig hkind
    have hninp : isInputFusion g i = false := by
      unfold isInputFusion
      simp [hkind]
    unfold reduceInputFusionCheckFails
    rcases htrig with ⟨hmof, hex⟩ | ⟨hmof, hrtc⟩
    · rw [if_pos hmof]
      simp only [Bool.and_eq_true, List.any_eq_true]
      exact ⟨hex, by simp [hninp]⟩
    · rw [if_neg (by simp [hmof])]
      simp only [Bool.and_eq_true, decide_eq_true_eq]
      exact ⟨⟨hfus, hrtc⟩, by simp [hninp]⟩

/-- Witness for C8: `gC8` satisfies the tagging invariant (its reduce
fusion is tagged Input), so the abort condition is false at its fusion
node. -/
theorem reduceInputFusionCheck_unreachable_witness :
    reduceInputFusionCheckFails gC8 3 = false :=
  (reduceInputFusionCheck_unreachable gC8).1 (by decide) 3

/-! ### Claim C7 -/

/-- C7: for a constant producer, `IsProducerConsumerFusible` returns
true only if the constant is an effective scalar and the consumer is a
fusion instruction; a non-effective-scalar constant is rejected for
every consumer; and an effective-scalar constant feeding a fusion
consumer that passes the preceding checks (the consumer is fusible, and
is either not an input-fusible reduction or is layout-friendly) is
accepted. -/
theorem constantProducer_fusible_characterisation (g : Graph) (p c : Nat)
    (hconst : (getNode g p).opcode = .constant) :
    (isProducerConsumerFusible g p c = true →
        (getNode g p).shape.isEffectiveScalar = true ∧ (getNode g c).opcode = .fusion) ∧
      ((getNode g p).shape.isEffectiveScalar = false →
        isProducerConsumerFusible g p c = false) ∧
      ((getNode g p).shape.isEffectiveScalar = true → (getNode g c).opcode = .fusion →
        isFusible g c = true →
        (isInputFusibleReduction g c = false ∨
          layoutsAreReduceInputFusionFriendly g p c = true) →
        isProducerConsumerFusible g p c = true) := by
  refine ⟨?_, ?_, ?_⟩
  · intro h
    unfold isProducerConsumerFusible at h
    split at h
    · exact absurd h (by simp)
    · split at h
      · exact absurd h (by simp)
      · split at h
        · exact absurd h (by simp)
        · split at h
          · exact absurd h (by simp)
          · simpa using h
  · intro hs
    unfold isProducerConsumerFusible
    split
    · rfl
    · split
      · rfl
      · split
        · rfl
        · split
          · rfl
          · simp [hs]
  · intro hs hc hfc hred
    have hB1 : isLoopFusible g p = true := by
      unfold isLoopFusible instrIsFusible
      rw [hconst]
      simp
    have hMOF : isMultiOutputFusion g p = false := by
      unfold isMultiOutputFusion
      rw [hconst]
      simp
    have hBC : couldBeBitcast g p = false := by
      unfold couldBeBitcast
      rw [hconst]
      simp
    have hRED : (isInputFusibleReduction g c &&
        !layoutsAreReduceInputFusionFriendly g p c) = false := by
      rcases hred with h | h
      · simp [h]
      · simp [h]
    unfold isProducerConsumerFusible
    split
    · rename_i h1
      rw [hB1, hfc] at h1
      exact absurd h1 (by simp)
    · split
      · rename_i h2
        exact absurd h2 (by simp [hMOF])
      · split
        · rename_i h3
          exact absurd h3 (by simp [hRED])
        · split
          · rename_i h4
            rw [hBC] at h4
            exact absurd h4 (by simp)
          · simp [hs, hc]

/-- Witness for C7: on `gC7` the scalar constant fuses into the
Loop-kind fusion, and the non-scalar constant does not. -/
theorem constantProducer_fusible_characterisation_witness :
    isProducerConsumerFusible gC7 0 3 = true ∧
      isProducerConsumerFusible gC7 4 3 = false :=
  ⟨(constantProducer_fusible_characterisation gC7 0 3 (by decide)).2.2 (by decide)
      (by decide) (by decide) (Or.inl (by decide)),
    (constantProducer_fusible_characterisation gC7 4 3 (by decide)).2.1 (by decide)⟩

/-! ### Claim C10 -/

/-- C10: a producer that is a Loop-kind fusion with exactly one operand
and a convert-rooted fused computation is classified eligible by
`PostponeFusion`'s first step whenever the byte size of the fusion's
input operand shape exceeds the byte size of the fusion's own output
shape — no downcast requirement is placed on the root convert itself —
and `PostponeFusion` then returns true for any consumer provided the
look-ahead succeeds and the cycle guard passes. -/
theorem postponeFusion_loopFusion_convert_eligible (g : Graph) (p c : Nat)
    (hfus : isLoopFusion g p = true)
    (hlen : (getNode g p).operands.length = 1)
    (hroot : (getNode g (getNode g p).fusedRoot).opcode = .convert)
    (hbytes : (getNode g (operand0 g p)).shape.byteSizeOf >
      (getNode g p).shape.byteSizeOf)
    (hfuse : shouldFuseProducerConsumerMOF g (operand0 g p) p = true)
    (hcycle : futureFusionMayCycle g (operand0 g p) = false) :
    postponeFusion g p c = true := by
  have hopc : (getNode g p).opcode = .fusion := by
    unfold isLoopFusion at hfus
    simp only [Bool.and_eq_true, decide_eq_true_eq] at hfus
    exact hfus.1
  have hdp : isDowncast g p = false := by
    unfold isDowncast
    rw [hopc]
    simp
  have hlook : postponeLookAhead g p = true := by
    unfold postponeLookAhead
    simp [hfuse, hcycle]
  unfold postponeFusion
  rw [if_neg (by simp [hdp])]
  by_cases h2 : isDowncast g (getNode g p).fusedRoot = true
  · rw [if_pos (show (isLoopFusion g p && isDowncast g (getNode g p).fusedRoot &&
        decide ((getNode g p).operands.length = 1)) = true by
      simp only [Bool.and_eq_true, decide_eq_true_eq]; exact ⟨⟨hfus, h2⟩, hlen⟩)]
    exact hlook
  · have h2f : isDowncast g (getNode g p).fusedRoot = false := by
      simpa using h2
    rw [if_neg (by simp [h2f]),
      if_pos (show (isLoopFusion g p && decide ((getNode g p).operands.length = 1)) = true by
        simp only [Bool.and_eq_true, decide_eq_true_eq]; exact ⟨hfus, hlen⟩),
      if_pos (show (decide ((getNode g (getNode g p).fusedRoot).opcode = .convert) &&
          decide ((getNode g (operand0 g p)).shape.byteSizeOf >
            (getNode g p).shape.byteSizeOf)) = true by
        simp only [Bool.and_eq_true, decide_eq_true_eq]; exact ⟨hroot, hbytes⟩)]
    exact hlook

/-- Witness for C10: on `gC10` the fusion at node 6 (whose root convert
upcasts `f16[4] → f32[4]` while the fusion shrinks `f64[4] → f32[4]`)
is postponed. -/
theorem postponeFusion_loopFusion_convert_eligible_witness :
    postponeFusion gC10 6 7 = true :=
  postponeFusion_loopFusion_convert_eligible gC10 6 7 (by decide) (by decide)
    (by decide) (by decide) (by decide) (by decide)

/-! ### Claim C4 -/

/-- The running maximum tracked by `scanMaxRank` never decreases. -/
theorem scanMaxRank_acc_le (l : List Shape) (acc : Int × List Nat) :
    acc.1 ≤ (scanMaxRank l acc).1 := by
  induction l generalizing acc with
  | nil => simp [scanMaxRank]
  | cons s rest ih =>
    simp only [scanMaxRank]
    refine le_trans ?_ (ih _)
    split
    · rename_i h
      simp only [Bool.and_eq_true, decide_eq_true_eq] at h
      exact le_of_lt h.2
    · exact le_refl _

/-- The rank of every array member of the list is bounded by the final
maximum computed by `scanMaxRank`. -/
theorem scanMaxRank_mem_le (l : List Shape) : ∀ (acc : Int × List Nat) (s : Shape),
    s ∈ l → s.isArrayB = true → (s.rank : Int) ≤ (scanMaxRank l acc).1 := by
  induction l with
  | nil =>
    intro acc s hs ha
    cases hs
  | cons t rest ih =>
    intro acc s hs ha
    simp only [scanMaxRank]
    rcases List.mem_cons.mp hs with h | h
    · subst h
      refine le_trans ?_ (scanMaxRank_acc_le rest _)
      split
      · simp
      · rename_i hcond
        rw [ha] at hcond
        simp only [Bool.true_and, decide_eq_true_eq] at hcond
        omega
    · exact ih _ s h ha

/-- The result of `scanMaxRank` is either the initial accumulator or
the rank and layout of some array member of the list. -/
theorem scanMaxRank_result (l : List Shape) : ∀ acc : Int × List Nat,
    scanMaxRank l acc = acc ∨
      ∃ s, s ∈ l ∧ s.isArrayB = true ∧ (scanMaxRank l acc).1 = (s.rank : Int) ∧
        (scanMaxRank l acc).2 = s.layout := by
  induction l with
  | nil =>
    intro acc
    left
    rfl
  | cons t rest ih =>
    intro acc
    simp only [scanMaxRank]
    split
    · rename_i hcond
      simp only [Bool.and_eq_true, decide_eq_true_eq] at hcond
      rcases ih ((t.rank : Int), t.layout) with h | ⟨s, hs, ha, h1, h2⟩
      · right
        refine ⟨t, List.mem_cons_self t rest, hcond.1, ?_, ?_⟩
        · rw [h]
        · rw [h]
      · right
        exact ⟨s, List.mem_cons_of_mem t hs, ha, h1, h2⟩
    · rcases ih acc with h | ⟨s, hs, ha, h1, h2⟩
      · left
        exact h
      · right
        exact ⟨s, List.mem_cons_of_mem t hs, ha, h1, h2⟩

/-- A membership-only characterisation of the layout-friendliness
check: any two array parameters of maximal rank must agree on layout. -/
def FriendlyProp (params : List Shape) : Prop :=
  ∀ p ∈ params, ∀ q ∈ params, p.isArrayB = true → q.isArrayB = true →
    (∀ r ∈ params, r.isArrayB = true → r.rank ≤ p.rank) →
    (∀ r ∈ params, r.isArrayB = true → r.rank ≤ q.rank) →
    p.layout = q.layout

/-- The computed check `friendlyList` agrees with the membership-only
characterisation `FriendlyProp`. -/
theorem friendlyList_iff (params : List Shape) :
    friendlyList params = true ↔ FriendlyProp params := by
  unfold friendlyList
  rw [List.all_eq_true]
  constructor
  · intro hall p hp q hq hpa hqa hpmax hqmax
    rcases scanMaxRank_result params (-1, []) with hres | ⟨s₀, hs₀, ha₀, h1, h2⟩
    · exfalso
      have hle := scanMaxRank_mem_le params (-1, []) p hp hpa
      rw [hres] at hle
      omega
    · have hple := scanMaxRank_mem_le params (-1, []) p hp hpa
      have hqle := scanMaxRank_mem_le params (-1, []) q hq hqa
      have hs₀p : s₀.rank ≤ p.rank := hpmax s₀ hs₀ ha₀
      have hs₀q : s₀.rank ≤ q.rank := hqmax s₀ hs₀ ha₀
      have hprank : ¬((p.rank : Int) < (scanMaxRank params (-1, [])).1) := by omega
      have hqrank : ¬((q.rank : Int) < (scanMaxRank params (-1, [])).1) := by omega
      have hpl := hall p hp
      have hql := hall q hq
      simp only [hpa, hqa, Bool.not_true, Bool.false_or, Bool.or_eq_true,
        decide_eq_true_eq] at hpl hql
      rcases hpl with h | hpl
      · exact absurd h hprank
      rcases hql with h | hql
      · exact absurd h hqrank
      rw [hpl, hql]
  · intro hprop s hs
    by_cases ha : s.isArrayB = true
    · by_cases hlt : (s.rank : Int) < (scanMaxRank params (-1, [])).1
      · simp [ha, hlt]
      · rcases scanMaxRank_result params (-1, []) with hres | ⟨s₀, hs₀, ha₀, h1, h2⟩
        · exfalso
          have hle := scanMaxRank_mem_le params (-1, []) s hs ha
          rw [hres] at hle
          omega
        · have hsle := scanMaxRank_mem_le params (-1, []) s hs ha
          have hmax_s : ∀ r ∈ params, r.isArrayB = true → r.rank ≤ s.rank := by
            intro r hr hra
            have := scanMaxRank_mem_le params (-1, []) r hr hra
            omega
          have hmax_s₀ : ∀ r ∈ params, r.isArrayB = true → r.rank ≤ s₀.rank := by
            intro r hr hra
            have := scanMaxRank_mem_le params (-1, []) r hr hra
            omega
          have hlay := hprop s hs s₀ hs₀ ha ha₀ hmax_s hmax_s₀
          simp [hlay, h2]
    · simp only [Bool.not_eq_true] at ha
      simp [ha]

/-- `FriendlyProp` depends only on which shapes occur in the list. -/
theorem FriendlyProp_congr (l₁ l₂ : List Shape) (h : ∀ s, s ∈ l₁ ↔ s ∈ l₂) :
    FriendlyProp l₁ ↔ FriendlyProp l₂ := by
  unfold FriendlyProp
  constructor
  · intro hp p hp₂ q hq₂ hpa hqa hpm hqm
    exact hp p ((h p).mpr hp₂) q ((h q).mpr hq₂) hpa hqa
      (fun r hr => hpm r ((h r).mp hr)) (fun r hr => hqm r ((h r).mp hr))
  · intro hp p hp₁ q hq₁ hpa hqa hpm hqm
    exact hp p ((h p).mp hp₁) q ((h q).mp hq₁) hpa hqa
      (fun r hr => hpm r ((h r).mpr hr)) (fun r hr => hqm r ((h r).mpr hr))

/-- Lists with the same members pass the friendliness check alike. -/
theorem friendlyList_eq_of_mem_iff (l₁ l₂ : List Shape) (h : ∀ s, s ∈ l₁ ↔ s ∈ l₂) :
    friendlyList l₁ = friendlyList l₂ := by
  by_cases h₁ : friendlyList l₁ = true
  · rw [h₁]
    exact ((friendlyList_iff l₂).mpr
      ((FriendlyProp_congr l₁ l₂ h).mp ((friendlyList_iff l₁).mp h₁))).symm
  · have h₂ : ¬friendlyList l₂ = true := by
      intro hc
      exact h₁ ((friendlyList_iff l₁).mpr
        ((FriendlyProp_congr l₁ l₂ h).mpr ((friendlyList_iff l₂).mp hc)))
    rw [Bool.not_eq_true] at h₁ h₂
    rw [h₁, h₂]

/-- C4: `LayoutsAreReduceInputFusionFriendly` is symmetric — swapping
which argument plays "producer" and which plays "reduce" never changes
the result, because both arguments contribute to one shared pool of
collected leaf parameters and the check depends only on that pool's
membership. -/
theorem layoutsAreReduceInputFusionFriendly_symm (g : Graph) (a b : Nat) :
    layoutsAreReduceInputFusionFriendly g a b =
      layoutsAreReduceInputFusionFriendly g b a := by
  unfold layoutsAreReduceInputFusionFriendly collectedParamShapes
  rw [List.map_append, List.map_append]
  apply friendlyList_eq_of_mem_iff
  intro s
  simp only [List.mem_append]
  exact or_comm

end XlaGpu
